import Mathlib

/-!
Verification of the dikt dictation app against its specification.

The session state machine is embedded from the frontend component in
src/unnamed/part_005 (`App`): the handlers `handlePressed` and
`handleReleased` are async functions with a single `await` point, so each
is split into a synchronous phase (everything executed at edge-receipt
time, up to the first `await`) and a continuation (the code run when the
awaited `invoke` resolves or rejects).  Signals (`status`, `error`) and
the module-level `isHolding` flag form the `AppState`.  `setStatus` calls
are recorded in an event list; `setTimeout(..., 1500)` scheduling is
recorded in a `timerScheduled` flag whose callback is `doneTimeoutFire`.
-/

namespace Dikt

/-- The `Status` union type of src/src/types.ts (the seven-state variant
used by src/unnamed/part_005). -/
inductive Status where
  | idle
  | recording
  | transcribing
  | formatting
  | pasting
  | done
  | error
deriving DecidableEq, Repr

/-- The `HotkeyMode` union type: `'hold' | 'lock'`. -/
inductive HotkeyMode where
  | hold
  | lock
deriving DecidableEq, Repr

/-- The mutable state of the `App` component relevant to the session
state machine: the `status` signal, the `error` signal and the
module-level `isHolding` flag. -/
structure AppState where
  status : Status
  error : String
  isHolding : Bool
deriving DecidableEq, Repr

/-- The awaited backend invocations a handler can start. -/
inductive PendingOp where
  | startRecording
  | stopAndTranscribe
deriving DecidableEq, Repr

/-- Result of the synchronous phase of a handler: the state after all
synchronous writes, the list of statuses set (status events), and the
backend invocation that is awaited next, if any. -/
structure SyncResult where
  state : AppState
  statusSets : List Status
  pending : Option PendingOp
deriving DecidableEq, Repr

/-- Result of a resumed continuation (or of an event listener): the new
state, the statuses set, and whether a 1.5 s display timeout was
scheduled via `setTimeout`. -/
structure ResumeResult where
  state : AppState
  statusSets : List Status
  timerScheduled : Bool
deriving DecidableEq, Repr

/-- Synchronous phase of `handlePressed` (src/unnamed/part_005 lines
43-86), up to the first `await`.  The `mode` argument is the value of
`settings().hotkey_mode` read at edge-receipt time. -/
def handlePressedSync (mode : HotkeyMode) (s : AppState) : SyncResult :=
  match mode with
  | .hold =>
    if s.isHolding || s.status == .recording then ⟨s, [], none⟩
    else
      ⟨{ status := .recording, error := "", isHolding := true },
        [.recording], some .startRecording⟩
  | .lock =>
    if s.status == .recording then
      ⟨{ s with status := .transcribing }, [.transcribing], some .stopAndTranscribe⟩
    else if s.status == .idle || s.status == .done || s.status == .error then
      ⟨{ s with status := .recording, error := "" }, [.recording], some .startRecording⟩
    else ⟨s, [], none⟩

/-- Synchronous phase of `handleReleased` (src/unnamed/part_005 lines
88-92), up to the `await invoke('stop_and_transcribe')`. -/
def handleReleasedSync (mode : HotkeyMode) (s : AppState) : SyncResult :=
  if mode != .hold || !s.isHolding then ⟨s, [], none⟩
  else
    ⟨{ s with isHolding := false, status := .transcribing },
      [.transcribing], some .stopAndTranscribe⟩

/-- Continuation of the hold branch of `handlePressed` after
`await invoke('start_recording')` (lines 49-55): nothing on success; on
rejection `isHolding = false; setStatus('error'); setError(String(err))`. -/
def afterStartRecordingHold (s : AppState) : Except String Unit → ResumeResult
  | .ok _ => ⟨s, [], false⟩
  | .error e => ⟨{ s with isHolding := false, status := .error, error := e }, [.error], false⟩

/-- Continuation of the lock start branch of `handlePressed` after
`await invoke('start_recording')` (lines 79-84): on rejection only
`setStatus('error'); setError(String(err))` (no `isHolding` write). -/
def afterStartRecordingLock (s : AppState) : Except String Unit → ResumeResult
  | .ok _ => ⟨s, [], false⟩
  | .error e => ⟨{ s with status := .error, error := e }, [.error], false⟩

/-- Continuation of the lock stop branch of `handlePressed` after
`await invoke('stop_and_transcribe')` (lines 62-72): on success, if the
status read at resume time is not `'error'`, set `'done'` and schedule
the 1.5 s revert timer; on rejection set `'error'`. -/
def afterStopAndTranscribePressed (s : AppState) : Except String Unit → ResumeResult
  | .ok _ =>
    if s.status != .error then ⟨{ s with status := .done }, [.done], true⟩
    else ⟨s, [], false⟩
  | .error e => ⟨{ s with status := .error, error := e }, [.error], false⟩

/-- Continuation of `handleReleased` after
`await invoke('stop_and_transcribe')` (lines 93-104); textually the same
block as the lock stop branch of `handlePressed`. -/
def afterStopAndTranscribeReleased (s : AppState) : Except String Unit → ResumeResult
  | .ok _ =>
    if s.status != .error then ⟨{ s with status := .done }, [.done], true⟩
    else ⟨s, [], false⟩
  | .error e => ⟨{ s with status := .error, error := e }, [.error], false⟩

/-- Callback of the scheduled 1.5 s display timeout:
`if (status() === 'done') setStatus('idle')`. -/
def doneTimeoutFire (s : AppState) : AppState :=
  if s.status == .done then { s with status := .idle } else s

/-- The `DictationUpdate` wire event type of src/src/types.ts. -/
structure DictationUpdate where
  state : Status
  message : Option String
  text : Option String
deriving DecidableEq, Repr

/-- The `dictation:update` listener (src/unnamed/part_005 lines
159-203); the `'idle'` case and the `default` case share one branch. -/
def onDictationUpdate (s : AppState) (u : DictationUpdate) : ResumeResult :=
  match u.state with
  | .recording => ⟨{ s with error := "", status := .recording }, [.recording], false⟩
  | .transcribing => ⟨{ s with error := "", status := .transcribing }, [.transcribing], false⟩
  | .formatting => ⟨{ s with error := "", status := .formatting }, [.formatting], false⟩
  | .pasting => ⟨{ s with error := "", status := .pasting }, [.pasting], false⟩
  | .done => ⟨{ s with isHolding := false, status := .done }, [.done], true⟩
  | .error =>
      ⟨{ s with isHolding := false, status := .error, error := u.message.getD "Error" },
        [.error], false⟩
  | .idle => ⟨{ s with isHolding := false, status := .idle }, [.idle], false⟩

/-- A hold-mode Press followed, with no interleaved event, by the
completion of `start_recording` with result `res`: final state and the
full sequence of statuses set. -/
def pressHoldRun (s : AppState) (res : Except String Unit) : AppState × List Status :=
  match handlePressedSync .hold s with
  | ⟨s1, ev, some .startRecording⟩ =>
      let r := afterStartRecordingHold s1 res
      (r.state, ev ++ r.statusSets)
  | ⟨s1, ev, _⟩ => (s1, ev)

/-!
Vocabulary sanitization, embedded from src/src/SettingsApp.tsx lines
13-42 (the same functions appear verbatim in src/unnamed/part_007).
JS `String.prototype.trim` is modelled by `jsTrim`;
`Array.from(new Set(xs))` (first occurrence kept, insertion order) by
`dedupFirst`; the fresh ids produced by `createVocabularyId()` (a UUID
or a `vocab-...` string, in either case non-empty and free of
surrounding whitespace) are supplied by a generator parameter `gen`
indexed by the entry position. -/

/-- Whitespace stripped by `String.prototype.trim` (ASCII portion). -/
def isJsWs (c : Char) : Bool := c == ' ' || c == '\t' || c == '\n' || c == '\r'

/-- `trim` on a character list: drop whitespace from both ends. -/
def jsTrimList (l : List Char) : List Char :=
  ((l.dropWhile isJsWs).reverse.dropWhile isJsWs).reverse

/-- JS `s.trim()`. -/
def jsTrim (s : String) : String := String.mk (jsTrimList s.data)

/-- Helper for `dedupFirst`: keep elements not seen before. -/
def dedupFirstAux (seen : List String) : List String → List String
  | [] => []
  | x :: xs =>
      if x ∈ seen then dedupFirstAux seen xs
      else x :: dedupFirstAux (x :: seen) xs

/-- `Array.from(new Set(xs))`: duplicates removed, first occurrence
kept, insertion order preserved. -/
def dedupFirst (xs : List String) : List String := dedupFirstAux [] xs

/-- src/src/constants.ts line 32. -/
def MAX_VOCABULARY_ENTRIES : Nat := 100

/-- src/src/constants.ts line 33. -/
def MAX_REPLACEMENTS_PER_ENTRY : Nat := 10

/-- The `VocabularyEntry` type of src/src/types.ts. -/
structure VocabularyEntry where
  id : String
  word : String
  replacements : List String
  enabled : Bool
deriving DecidableEq, Repr

/-- `Partial<VocabularyEntry>`: every field may be absent (the code
defaults each with `??`). -/
structure PartialVocabularyEntry where
  id : Option String
  word : Option String
  replacements : Option (List String)
  enabled : Option Bool
deriving DecidableEq, Repr

/-- `sanitizeVocabularyEntry` (SettingsApp.tsx lines 20-35).  `fresh`
is the value `createVocabularyId()` would return for this call; the JS
`(entry.id ?? '').trim() || createVocabularyId()` uses it exactly when
the trimmed id is the empty string (falsy). -/
def sanitizeVocabularyEntry (fresh : String) (e : PartialVocabularyEntry) : VocabularyEntry :=
  let replacements :=
    (dedupFirst ((((e.replacements.getD []).map jsTrim).filter
        (fun v => v.length > 0)))).take MAX_REPLACEMENTS_PER_ENTRY
  { id := if (jsTrim (e.id.getD "")).length = 0 then fresh else jsTrim (e.id.getD "")
    word := jsTrim (e.word.getD "")
    replacements := replacements
    enabled := e.enabled.getD true }

/-- `map` with the element position threaded through, used to hand each
`sanitizeVocabularyEntry` call its own fresh id. -/
def mapWithIdx (f : Nat → α → β) : Nat → List α → List β
  | _, [] => []
  | i, a :: l => f i a :: mapWithIdx f (i + 1) l

/-- `sanitizeVocabulary` (SettingsApp.tsx lines 37-42): sanitize each
entry, drop entries whose word is empty, cap at 100 entries. -/
def sanitizeVocabulary (gen : Nat → String) (v : List PartialVocabularyEntry) :
    List VocabularyEntry :=
  ((mapWithIdx (fun i e => sanitizeVocabularyEntry (gen i) e) 0 v).filter
      (fun e => e.word.length > 0)).take MAX_VOCABULARY_ENTRIES

/-- Re-inject a sanitized entry as the `Partial<VocabularyEntry>` input
of a second sanitization pass (all fields present). -/
def toPartial (e : VocabularyEntry) : PartialVocabularyEntry :=
  ⟨some e.id, some e.word, some e.replacements, some e.enabled⟩

/-!
Mode management, embedded from src/unnamed/part_007 (`deleteMode`,
`setActiveModeId`, `resetModes`, lines 344-372) over the
`{modes, active_mode_id}` fragment of `Settings`, with the default
modes of src/unnamed/part_016. -/

/-- The `Mode` type of src/src/types.ts. -/
structure Mode where
  id : String
  name : String
  system_prompt : String
  model : String
deriving DecidableEq, Repr

/-- `DEFAULT_MODES` of src/unnamed/part_016. -/
def DEFAULT_MODES : List Mode := [
  ⟨"clean-draft", "Clean Draft",
    "You are a precise text editor that cleans up voice-dictated text. Your sole job is to make the transcription read as if it were typed, not spoken.\n\nRules:\n- Remove filler words and verbal hesitations: um, uh, er, like, you know, I mean, sort of, kind of, basically, actually, literally, right, so yeah, and stuff.\n- Fix grammar, punctuation, and capitalization errors introduced by speech-to-text.\n- Break run-on sentences into properly punctuated sentences.\n- Preserve the speaker's original wording, vocabulary, and tone. Do not rephrase, paraphrase, or \"improve\" their language.\n- Preserve all technical terms, names, numbers, and domain-specific jargon exactly as spoken.\n- Do not add, remove, or reorder any ideas or content. Do not summarize.\n- Do not add headers, bullet points, or any structural formatting unless the speaker explicitly dictated them.\n- If the speaker dictated punctuation verbally (e.g., \"comma\", \"period\", \"new line\"), convert it to the actual punctuation mark.\n\nOutput only the cleaned text. No commentary, no explanations, no preamble.",
    "llama-3.3-70b-versatile"⟩,
  ⟨"meeting-notes", "Meeting Notes",
    "You are a skilled note-taker that converts raw dictated meeting audio transcriptions into structured, scannable meeting notes.\n\nAnalyze the transcription and produce notes in this format:\n\n## Summary\nA 1-3 sentence overview of what was discussed.\n\n## Key Points\n- Bullet points capturing the main topics and decisions made.\n\n## Action Items\n- [ ] Task description - @Owner (if mentioned)\n- List every commitment, to-do, or follow-up mentioned, with the responsible person if identifiable.\n\n## Decisions\n- Any explicit decisions or agreements reached during the meeting.\n\nRules:\n- Extract signal from noise: ignore filler, small talk, and off-topic tangents.\n- Preserve specific details: names, dates, numbers, deadlines, and technical terms exactly as spoken.\n- Use concise, professional language. Each bullet should be one clear sentence.\n- If no action items or decisions were identified, omit that section rather than writing \"None.\"\n- Do not fabricate information that was not in the transcription.\n- Do not include a greeting or sign-off. Output only the structured notes.",
    "llama-3.3-70b-versatile"⟩,
  ⟨"email-composer", "Email Composer",
    "You are an executive assistant helping to draft professional emails based on dictated notes. Your goal is to convert informal speech into polished, concise, and polite email correspondence. Maintain a professional tone but avoid overly flowery language.\n\nStructure the output with:\n\n**Subject:** A clear, specific subject line derived from the content.\n\n**Body:** The full email text with proper greeting, body paragraphs, and closing.\n\nRules:\n- Infer the appropriate level of formality from context. Default to professional but approachable.\n- Use a natural greeting (e.g., \"Hi [Name],\" or \"Hello [Name],\") if a recipient is mentioned. Otherwise use a generic opener.\n- Keep paragraphs short (2-4 sentences). Get to the point quickly.\n- If the speaker mentioned specific requests, deadlines, or questions, make them clearly visible in the email.\n- Close with an appropriate sign-off (e.g., \"Best regards,\" or \"Thanks,\") followed by a placeholder [Your Name].\n- Remove all filler words, false starts, and verbal thinking-out-loud from the dictation.\n- Do not invent details, commitments, or context not present in the dictation.\n- If the dictation is vague about the recipient or context, make reasonable assumptions and keep the email general enough to work.\n\nOutput only the email. No commentary or meta-text outside the email itself.",
    "llama-3.3-70b-versatile"⟩,
  ⟨"developer-log", "Developer Mode",
    "You are a transcription formatter that converts dictated speech into clear, direct instructions for coding agents (like Claude Code, Codex, Cursor, etc.).\n\nThe speaker is dictating commands and instructions they want to send to an AI coding assistant. Your job is to clean up the speech into well-formed plain text instructions that a coding agent can act on.\n\nRules:\n- Output plain text instructions, not markdown. No headers, no bullet points, no code blocks, no formatting unless the speaker explicitly dictated them.\n- Preserve the speaker's intent and instruction style. These are imperative commands to a coding agent — keep them direct.\n- Remove filler words, false starts, and verbal hesitations, but keep all technical detail.\n- Preserve all technical terms, function names, file paths, variable names, error messages, and code references exactly as spoken.\n- Convert spoken code conventions to proper formatting (e.g., \"dash greater than\" to \"->\", \"dot\" to \".\", \"equals equals equals\" to \"===\").\n- If the speaker dictates punctuation verbally (e.g., \"comma\", \"period\", \"new line\", \"new paragraph\"), convert to actual punctuation or whitespace.\n- Keep the natural flow of instructions as the speaker intended. If they said multiple things, keep them in order as a coherent instruction.\n- Do not add structure, summaries, or reformat into lists unless the speaker asked for it.\n- Do not fabricate file names, function names, or technical details not mentioned.\n- Output only the cleaned instruction text. No commentary, no preamble.",
    "llama-3.3-70b-versatile"⟩
]

/-- The fragment of `Settings` the mode operations act on. -/
structure ModesState where
  modes : List Mode
  active_mode_id : Option String
deriving DecidableEq, Repr

/-- `deleteMode` (part_007 lines 344-351): remove the mode, and null
the active id exactly when the deleted mode was active. -/
def deleteMode (id : String) (s : ModesState) : ModesState :=
  { s with
    modes := s.modes.filter (fun m => m.id != id)
    active_mode_id := if s.active_mode_id = some id then none else s.active_mode_id }

/-- `setActiveModeId` (part_007 lines 360-363): store the given id
unchecked. -/
def setActiveModeId (id : Option String) (s : ModesState) : ModesState :=
  { s with active_mode_id := id }

/-- `resetModes` (part_007 lines 365-372): restore the default modes
and null the active id. -/
def resetModes (s : ModesState) : ModesState :=
  { s with modes := DEFAULT_MODES, active_mode_id := none }

/-- The `active_mode_id` invariant: null, or the id of a mode present
in the modes list. -/
def activeModeIdOk (s : ModesState) : Bool :=
  match s.active_mode_id with
  | none => true
  | some i => s.modes.any (fun m => m.id == i)

/-!
Vocabulary Corrector.  The code applying vocabulary corrections to the
transcribed text lives in the Rust backend (src-tauri), which is not
part of the available sources; it is modelled here from §4.2 of the
specification. -/

/-- Modelled from the spec: word/phrase boundary classification used by
the Vocabulary Corrector of §4.2 (the Rust implementation in src-tauri
is not among the sources).  A boundary lies between a word character
(letter, digit or underscore) and anything else. -/
def isWordChar (c : Char) : Bool := c.isAlpha || c.isDigit || c == '_'

/-- Modelled from the spec: case-insensitive prefix test.  If `pat` is
a case-insensitive prefix of `text`, return the remainder of `text`. -/
def ciStrip : List Char → List Char → Option (List Char)
  | [], rest => some rest
  | _, [] => none
  | p :: ps, c :: cs => if p.toLower == c.toLower then ciStrip ps cs else none

/-- Modelled from the spec: one left-to-right scan replacing every
case-insensitive, boundary-delimited occurrence of `pat` in the text
with `word`.  `prevIsWord` tells whether the character just before the
current position is a word character; `fuel` bounds the recursion. -/
def replaceScan (pat word : List Char) : Nat → Bool → List Char → List Char
  | 0, _, text => text
  | _ + 1, _, [] => []
  | fuel + 1, prevIsWord, c :: cs =>
      if !prevIsWord then
        match ciStrip pat (c :: cs) with
        | some rest =>
            if rest.isEmpty || !isWordChar (rest.headD ' ') then
              word ++ replaceScan pat word fuel ((word.getLast?.map isWordChar).getD prevIsWord) rest
            else c :: replaceScan pat word fuel (isWordChar c) cs
        | none => c :: replaceScan pat word fuel (isWordChar c) cs
      else c :: replaceScan pat word fuel (isWordChar c) cs

/-- Modelled from the spec: replace all case-insensitive whole-phrase
occurrences of the replacement phrase `pat` in `text` with the
canonical `word` (§4.2). -/
def applyReplacement (word pat text : String) : String :=
  String.mk (replaceScan pat.data word.data (text.data.length + 1) false text.data)

/-- Modelled from the spec: apply one vocabulary entry — each of its
replacement phrases in order — to the text; disabled entries leave the
text untouched (§4.2). -/
def correctWithEntry (text : String) (e : VocabularyEntry) : String :=
  if e.enabled then e.replacements.foldl (fun t r => applyReplacement e.word r t) text
  else text

/-- Modelled from the spec: the Vocabulary Corrector of §4.2 — apply
the entries in list (insertion) order to the transcribed text. -/
def correctText (entries : List VocabularyEntry) (text : String) : String :=
  entries.foldl correctWithEntry text

/-!
Claim theorems for the session state machine. -/

/-- Claim C1 (amended): in hold mode a Press while the status is
`recording` is a no-op (state unchanged, no status set, nothing
invoked); a Release is a no-op whenever no hold is in progress
(`isHolding` false) or the current hotkey mode is not hold.  The
original claim's stronger form — Release a no-op whenever the status is
not `recording` — fails (see the counterexample). -/
theorem press_release_noop_rules :
    (∀ s : AppState, s.status = .recording → handlePressedSync .hold s = ⟨s, [], none⟩) ∧
    (∀ s : AppState, s.isHolding = false → handleReleasedSync .hold s = ⟨s, [], none⟩) ∧
    (∀ s : AppState, handleReleasedSync .lock s = ⟨s, [], none⟩) := by
  refine ⟨?_, ?_, ?_⟩
  · intro s h
    simp [handlePressedSync, h]
  · intro s h
    simp [handleReleasedSync, h]
  · intro s
    simp [handleReleasedSync]

/-- Witness for C1: a concrete Press while recording is a no-op. -/
theorem press_release_noop_rules_witness :
    (AppState.mk .recording "" false).status = .recording ∧
    handlePressedSync .hold ⟨.recording, "", false⟩ = ⟨⟨.recording, "", false⟩, [], none⟩ :=
  ⟨by decide, press_release_noop_rules.1 ⟨.recording, "", false⟩ (by decide)⟩

/-- Claim C1 counterexample: `handleReleased` guards on `isHolding`,
not on the status.  From the initial state, a hold Press followed by a
backend `dictation:update` with state `transcribing` yields a state
whose status is not `recording` but in which a Release is not a no-op
(it clears `isHolding`, sets a status and invokes the stop path). -/
theorem release_while_not_recording_not_noop :
    ((onDictationUpdate (handlePressedSync .hold ⟨.idle, "", false⟩).state
        ⟨.transcribing, none, none⟩).state.status ≠ .recording) ∧
    handleReleasedSync .hold
        (onDictationUpdate (handlePressedSync .hold ⟨.idle, "", false⟩).state
          ⟨.transcribing, none, none⟩).state ≠
      ⟨(onDictationUpdate (handlePressedSync .hold ⟨.idle, "", false⟩).state
          ⟨.transcribing, none, none⟩).state, [], none⟩ := by
  decide

/-- Claim C2: on an accepted hold-mode Press, the status is `recording`
(and `isHolding` is set) already in the synchronous phase, before the
`start_recording` invocation is awaited, and a Release arriving in that
window is treated as a release of an in-progress hold (it proceeds to
the stop path rather than being discarded). -/
theorem press_sets_recording_before_io (s : AppState)
    (h1 : s.isHolding = false) (h2 : s.status ≠ .recording) :
    (handlePressedSync .hold s).state.status = .recording ∧
    (handlePressedSync .hold s).state.isHolding = true ∧
    (handlePressedSync .hold s).pending = some .startRecording ∧
    handleReleasedSync .hold (handlePressedSync .hold s).state =
      ⟨{ (handlePressedSync .hold s).state with isHolding := false, status := .transcribing },
        [.transcribing], some .stopAndTranscribe⟩ := by
  simp [handlePressedSync, handleReleasedSync, h1, h2]

/-- Witness for C2 at the initial state. -/
theorem press_sets_recording_before_io_witness :
    (AppState.mk .idle "" false).isHolding = false ∧
    (AppState.mk .idle "" false).status ≠ .recording ∧
    (handlePressedSync .hold ⟨.idle, "", false⟩).state.status = .recording ∧
    (handlePressedSync .hold ⟨.idle, "", false⟩).state.isHolding = true ∧
    (handlePressedSync .hold ⟨.idle, "", false⟩).pending = some .startRecording ∧
    handleReleasedSync .hold (handlePressedSync .hold ⟨.idle, "", false⟩).state =
      ⟨{ (handlePressedSync .hold ⟨.idle, "", false⟩).state with
          isHolding := false, status := .transcribing },
        [.transcribing], some .stopAndTranscribe⟩ := by
  refine ⟨by decide, by decide, ?_⟩
  exact press_sets_recording_before_io ⟨.idle, "", false⟩ (by decide) (by decide)

/-- Claim C3 (amended): the `done` status auto-reverts to `idle` via
the scheduled 1.5 s timeout, and a valid edge arriving first supersedes
the revert (the stale timer callback changes nothing once the status
left `done`); the `error` status, however, never auto-reverts: no
error transition schedules a timer, and the timer callback leaves an
`error` state unchanged. -/
theorem done_reverts_error_persists :
    (∀ s : AppState, s.status ≠ .error →
        afterStopAndTranscribeReleased s (.ok ()) =
          ⟨{ s with status := .done }, [.done], true⟩) ∧
    (∀ s : AppState, (onDictationUpdate s ⟨.done, none, none⟩).timerScheduled = true) ∧
    (∀ s : AppState, s.status = .done → doneTimeoutFire s = { s with status := .idle }) ∧
    (∀ s : AppState, s.status ≠ .done → doneTimeoutFire s = s) ∧
    (∀ (s : AppState) (m : Option String),
        (onDictationUpdate s ⟨.error, m, none⟩).timerScheduled = false) ∧
    (∀ (s : AppState) (e : String),
        (afterStopAndTranscribeReleased s (.error e)).timerScheduled = false) := by
  refine ⟨?_, ?_, ?_, ?_, ?_, ?_⟩
  · intro s h
    simp [afterStopAndTranscribeReleased, h]
  · intro s
    simp [onDictationUpdate]
  · intro s h
    simp [doneTimeoutFire, h]
  · intro s h
    simp [doneTimeoutFire, h]
  · intro s m
    simp [onDictationUpdate]
  · intro s e
    simp [afterStopAndTranscribeReleased]

/-- Witness for C3: a concrete successful stop from `transcribing`
reaches `done` with the revert timer scheduled, and the timer then
reverts to `idle`. -/
theorem done_reverts_error_persists_witness :
    (AppState.mk .transcribing "" false).status ≠ .error ∧
    afterStopAndTranscribeReleased ⟨.transcribing, "", false⟩ (.ok ()) =
      ⟨⟨.done, "", false⟩, [.done], true⟩ ∧
    doneTimeoutFire ⟨.done, "", false⟩ = ⟨.idle, "", false⟩ :=
  ⟨by decide,
    by
      have h := done_reverts_error_persists.1 ⟨.transcribing, "", false⟩ (by decide)
      exact h,
    by
      have h := done_reverts_error_persists.2.2.1 ⟨.done, "", false⟩ (by decide)
      exact h⟩

/-- Claim C3 counterexample: an `error` transition (here via the
`dictation:update` listener, likewise for a failed stop) schedules no
revert timer, and the timeout callback leaves the error state
untouched: `error` does not auto-revert to `idle`. -/
theorem error_never_auto_reverts :
    (onDictationUpdate ⟨.recording, "", true⟩ ⟨.error, some "boom", none⟩).timerScheduled
        = false ∧
    (onDictationUpdate ⟨.recording, "", true⟩ ⟨.error, some "boom", none⟩).state.status
        = .error ∧
    doneTimeoutFire (onDictationUpdate ⟨.recording, "", true⟩
        ⟨.error, some "boom", none⟩).state =
      (onDictationUpdate ⟨.recording, "", true⟩ ⟨.error, some "boom", none⟩).state ∧
    (afterStopAndTranscribeReleased ⟨.transcribing, "", false⟩
        (.error "boom")).timerScheduled = false := by
  decide

/-- Claim C4 (amended): on an accepted hold-mode Press the session
starts audio capture and transitions to `recording`; if the start
invocation fails the session moves to `error` with the failure's
message and `isHolding` cleared — but `recording` is observed first,
having been set synchronously at edge-receipt time, so the status
sequence on failure is `[recording, error]`, not `[error]` alone. -/
theorem press_hold_failure_path (s : AppState) (e : String)
    (h1 : s.isHolding = false) (h2 : s.status ≠ .recording) :
    pressHoldRun s (.ok ()) = (⟨.recording, "", true⟩, [.recording]) ∧
    pressHoldRun s (.error e) = (⟨.error, e, false⟩, [.recording, .error]) := by
  simp [pressHoldRun, handlePressedSync, afterStartRecordingHold, h1, h2]

/-- Witness for C4 at the initial state. -/
theorem press_hold_failure_path_witness :
    (AppState.mk .idle "" false).isHolding = false ∧
    (AppState.mk .idle "" false).status ≠ .recording ∧
    pressHoldRun ⟨.idle, "", false⟩ (.ok ()) = (⟨.recording, "", true⟩, [.recording]) ∧
    pressHoldRun ⟨.idle, "", false⟩ (.error "boom") =
      (⟨.error, "boom", false⟩, [.recording, .error]) := by
  refine ⟨by decide, by decide, ?_⟩
  exact press_hold_failure_path ⟨.idle, "", false⟩ "boom" (by decide) (by decide)

/-- Claim C4 counterexample: with a failing `start_recording`, the
status sequence is `[recording, error]`, so a `recording` state is
observed before the error — the claim's "no Recording state ever
observed" does not hold of the code. -/
theorem recording_observed_before_error :
    (pressHoldRun ⟨.idle, "", false⟩ (.error "boom")).2 = [.recording, .error] ∧
    Status.recording ∈ (pressHoldRun ⟨.idle, "", false⟩ (.error "boom")).2 ∧
    (pressHoldRun ⟨.idle, "", false⟩ (.error "boom")).1 = ⟨.error, "boom", false⟩ := by
  decide

/-- Claim C5: in lock mode, a Toggle from `idle`, `done` or `error`
clears the error text, sets `recording` and invokes audio-capture
start; a Toggle from `recording` sets `transcribing` and invokes the
stop path, whose continuation is the same as the hold-mode release
continuation; a Toggle in any other status changes nothing. -/
theorem toggle_transitions :
    (∀ s : AppState, (s.status = .idle ∨ s.status = .done ∨ s.status = .error) →
        handlePressedSync .lock s =
          ⟨{ s with status := .recording, error := "" }, [.recording],
            some .startRecording⟩) ∧
    (∀ s : AppState, s.status = .recording →
        handlePressedSync .lock s =
          ⟨{ s with status := .transcribing }, [.transcribing], some .stopAndTranscribe⟩) ∧
    (∀ s : AppState,
        (s.status = .transcribing ∨ s.status = .formatting ∨ s.status = .pasting) →
        handlePressedSync .lock s = ⟨s, [], none⟩) ∧
    (∀ (s : AppState) (r : Except String Unit),
        afterStopAndTranscribePressed s r = afterStopAndTranscribeReleased s r) := by
  refine ⟨?_, ?_, ?_, ?_⟩
  · intro s h
    rcases h with h | h | h <;> simp [handlePressedSync, h]
  · intro s h
    simp [handlePressedSync, h]
  · intro s h
    rcases h with h | h | h <;> simp [handlePressedSync, h]
  · intro s r
    cases r <;> rfl

/-- Witness for C5: a concrete Toggle from `idle` starts recording and
a Toggle from `recording` goes to `transcribing`. -/
theorem toggle_transitions_witness :
    (AppState.mk .idle "e" false).status = .idle ∧
    handlePressedSync .lock ⟨.idle, "e", false⟩ =
      ⟨⟨.recording, "", false⟩, [.recording], some .startRecording⟩ ∧
    handlePressedSync .lock ⟨.recording, "", false⟩ =
      ⟨⟨.transcribing, "", false⟩, [.transcribing], some .stopAndTranscribe⟩ :=
  ⟨by decide,
    toggle_transitions.1 ⟨.idle, "e", false⟩ (Or.inl (by decide)),
    toggle_transitions.2.1 ⟨.recording, "", false⟩ (by decide)⟩

/-- Claim C8 (amended): the configuration is not snapshotted at session
start — `handleReleased` re-reads the current `hotkey_mode` at
release time, so with a hold in progress a Release under mode `lock`
is discarded (the session keeps recording and `isHolding` stays set)
while the same Release under mode `hold` proceeds to the stop path:
mutating the configuration mid-session changes the session's outcome. -/
theorem released_reads_live_mode (s : AppState) (h : s.isHolding = true) :
    handleReleasedSync .lock s = ⟨s, [], none⟩ ∧
    handleReleasedSync .hold s =
      ⟨{ s with isHolding := false, status := .transcribing }, [.transcribing],
        some .stopAndTranscribe⟩ := by
  simp [handleReleasedSync, h]

/-- Witness for C8 at the mid-session state reached by a hold Press. -/
theorem released_reads_live_mode_witness :
    (AppState.mk .recording "" true).isHolding = true ∧
    handleReleasedSync .lock ⟨.recording, "", true⟩ = ⟨⟨.recording, "", true⟩, [], none⟩ ∧
    handleReleasedSync .hold ⟨.recording, "", true⟩ =
      ⟨⟨.transcribing, "", false⟩, [.transcribing], some .stopAndTranscribe⟩ :=
  ⟨by decide, released_reads_live_mode ⟨.recording, "", true⟩ (by decide)⟩

/-- Claim C8 counterexample: two runs of one in-flight session that
differ only in the hotkey mode switching from hold to lock between
Press and Release end differently — the hold run transitions to
`transcribing`, the mutated run ignores the Release entirely. -/
theorem mode_switch_changes_outcome :
    (handleReleasedSync .hold ⟨.recording, "", true⟩).state.status = .transcribing ∧
    (handleReleasedSync .lock ⟨.recording, "", true⟩).state = ⟨.recording, "", true⟩ ∧
    (handleReleasedSync .lock ⟨.recording, "", true⟩).pending = none ∧
    handleReleasedSync .hold ⟨.recording, "", true⟩ ≠
      handleReleasedSync .lock ⟨.recording, "", true⟩ := by
  decide

/-!
Claim theorems for the mode operations. -/

/-- Claim C9 (amended): `deleteMode` preserves the `active_mode_id`
invariant — deleting the active mode nulls the id, deleting any other
mode leaves it unchanged — and `resetModes` nulls it; `setActiveModeId`
stores its argument unchecked, so it preserves the invariant only when
given `null` or the id of an existing mode (see the counterexample). -/
theorem mode_ops_preserve_invariant :
    (∀ (s : ModesState) (id : String), activeModeIdOk s = true →
        activeModeIdOk (deleteMode id s) = true) ∧
    (∀ (s : ModesState) (id : String), s.active_mode_id = some id →
        (deleteMode id s).active_mode_id = none) ∧
    (∀ (s : ModesState) (id : String), s.active_mode_id ≠ some id →
        (deleteMode id s).active_mode_id = s.active_mode_id) ∧
    (∀ s : ModesState, (resetModes s).active_mode_id = none ∧
        activeModeIdOk (resetModes s) = true) ∧
    (∀ s : ModesState, activeModeIdOk (setActiveModeId none s) = true) ∧
    (∀ (s : ModesState) (a : String), s.modes.any (fun m => m.id == a) = true →
        activeModeIdOk (setActiveModeId (some a) s) = true) := by
  refine ⟨?_, ?_, ?_, ?_, ?_, ?_⟩
  · intro s id h
    cases hA : s.active_mode_id with
    | none => simp [deleteMode, activeModeIdOk, hA]
    | some a =>
        by_cases hai : a = id
        · subst hai
          simp [deleteMode, activeModeIdOk, hA]
        · rw [activeModeIdOk, hA] at h
          rw [List.any_eq_true] at h
          obtain ⟨m, hm, hma⟩ := h
          rw [beq_iff_eq] at hma
          have hcond : ¬ (some a = some id) := by
            intro hc
            exact hai (Option.some.inj hc)
          simp only [deleteMode, activeModeIdOk, hA, if_neg hcond]
          rw [List.any_eq_true]
          refine ⟨m, ?_, by rw [beq_iff_eq]; exact hma⟩
          rw [List.mem_filter]
          refine ⟨hm, ?_⟩
          rw [bne_iff_ne]
          rw [hma]
          exact hai
  · intro s id h
    simp [deleteMode, h]
  · intro s id h
    simp [deleteMode, if_neg h]
  · intro s
    exact ⟨rfl, rfl⟩
  · intro s
    rfl
  · intro s a h
    simpa [setActiveModeId, activeModeIdOk] using h

/-- Witness for C9: deleting the active mode from a concrete state
preserves the invariant (the active id is nulled). -/
theorem mode_ops_preserve_invariant_witness :
    activeModeIdOk ⟨[⟨"m1", "n", "p", "mo"⟩], some "m1"⟩ = true ∧
    activeModeIdOk (deleteMode "m1" ⟨[⟨"m1", "n", "p", "mo"⟩], some "m1"⟩) = true :=
  ⟨by decide,
    mode_ops_preserve_invariant.1 ⟨[⟨"m1", "n", "p", "mo"⟩], some "m1"⟩ "m1" (by decide)⟩

/-- Claim C9 counterexample: `setActiveModeId` does not check that the
given id resolves to a mode, so it can break the invariant: on a state
with no modes it happily installs a dangling active id. -/
theorem setActiveModeId_breaks_invariant :
    activeModeIdOk ⟨[], none⟩ = true ∧
    activeModeIdOk (setActiveModeId (some "ghost") ⟨[], none⟩) = false := by
  decide

/-!
Helper lemmas about `jsTrim`, `dedupFirst` and `mapWithIdx`. -/

lemma length_dropWhile_le (p : α → Bool) (l : List α) :
    (l.dropWhile p).length ≤ l.length := by
  induction l with
  | nil => simp
  | cons a l ih =>
      by_cases h : p a = true
      · rw [List.dropWhile_cons_of_pos h]
        exact Nat.le_trans ih (Nat.le_succ _)
      · rw [List.dropWhile_cons_of_neg h]

lemma dropWhile_dropWhile (p : α → Bool) (l : List α) :
    (l.dropWhile p).dropWhile p = l.dropWhile p := by
  induction l with
  | nil => rfl
  | cons a l ih =>
      by_cases h : p a = true
      · rw [List.dropWhile_cons_of_pos h]
        exact ih
      · rw [List.dropWhile_cons_of_neg h, List.dropWhile_cons_of_neg h]

lemma exists_append_dropWhile (p : α → Bool) (l : List α) :
    ∃ r : List α, r ++ l.dropWhile p = l := by
  induction l with
  | nil => exact ⟨[], rfl⟩
  | cons a l ih =>
      by_cases h : p a = true
      · obtain ⟨r, hr⟩ := ih
        refine ⟨a :: r, ?_⟩
        rw [List.dropWhile_cons_of_pos h, List.cons_append, hr]
      · exact ⟨[], by rw [List.dropWhile_cons_of_neg h, List.nil_append]⟩

lemma dropWhile_self_of_append (p : α → Bool) {t r d : List α}
    (hd : t ++ r = d) (hfix : d.dropWhile p = d) : t.dropWhile p = t := by
  cases t with
  | nil => rfl
  | cons a t' =>
      have ha : ¬ p a = true := by
        intro hpa
        have h1 : d.dropWhile p = (t' ++ r).dropWhile p := by
          rw [← hd, List.cons_append, List.dropWhile_cons_of_pos hpa]
        have h2 : d.length ≤ (t' ++ r).length := by
          rw [← hfix, h1]
          exact length_dropWhile_le p (t' ++ r)
        rw [← hd] at h2
        simp at h2
      rw [List.dropWhile_cons_of_neg ha]

lemma jsTrimList_idem (l : List Char) : jsTrimList (jsTrimList l) = jsTrimList l := by
  have hdfix : (l.dropWhile isJsWs).dropWhile isJsWs = l.dropWhile isJsWs :=
    dropWhile_dropWhile _ _
  have hufix : ((l.dropWhile isJsWs).reverse.dropWhile isJsWs).dropWhile isJsWs =
      (l.dropWhile isJsWs).reverse.dropWhile isJsWs := dropWhile_dropWhile _ _
  obtain ⟨r, hr⟩ := exists_append_dropWhile isJsWs (l.dropWhile isJsWs).reverse
  have hr' : ((l.dropWhile isJsWs).reverse.dropWhile isJsWs).reverse ++ r.reverse =
      l.dropWhile isJsWs := by
    have h2 := congrArg List.reverse hr
    simpa using h2
  have h1 : (jsTrimList l).dropWhile isJsWs = jsTrimList l :=
    dropWhile_self_of_append isJsWs hr' hdfix
  show (((jsTrimList l).dropWhile isJsWs).reverse.dropWhile isJsWs).reverse = jsTrimList l
  rw [h1]
  have hTrev : (jsTrimList l).reverse = (l.dropWhile isJsWs).reverse.dropWhile isJsWs := by
    unfold jsTrimList
    exact List.reverse_reverse _
  rw [hTrev, hufix]
  rfl

lemma jsTrim_idem (s : String) : jsTrim (jsTrim s) = jsTrim s :=
  congrArg String.mk (jsTrimList_idem s.data)

lemma string_ne_empty_of_length_pos {s : String} (h : 0 < s.length) : s ≠ "" := by
  intro hc
  subst hc
  exact absurd h (by decide)

lemma string_eq_empty_of_length_eq_zero {s : String} (h : s.length = 0) : s = "" := by
  cases s with
  | mk data =>
      cases data with
      | nil => rfl
      | cons c cs => simp [String.length] at h

lemma mem_dedupFirstAux : ∀ {seen xs : List String} {y : String},
    y ∈ dedupFirstAux seen xs → y ∈ xs ∧ y ∉ seen := by
  intro seen xs
  induction xs generalizing seen with
  | nil => intro y h; simp [dedupFirstAux] at h
  | cons x xs ih =>
      intro y h
      by_cases hx : x ∈ seen
      · simp only [dedupFirstAux, if_pos hx] at h
        obtain ⟨h1, h2⟩ := ih h
        exact ⟨List.mem_cons_of_mem _ h1, h2⟩
      · simp only [dedupFirstAux, if_neg hx] at h
        rcases List.mem_cons.mp h with h | h
        · subst h
          exact ⟨List.mem_cons_self _ _, hx⟩
        · obtain ⟨h1, h2⟩ := ih h
          exact ⟨List.mem_cons_of_mem _ h1, fun hy => h2 (List.mem_cons_of_mem _ hy)⟩

lemma nodup_dedupFirstAux : ∀ (seen xs : List String), (dedupFirstAux seen xs).Nodup := by
  intro seen xs
  induction xs generalizing seen with
  | nil => simp [dedupFirstAux]
  | cons x xs ih =>
      by_cases hx : x ∈ seen
      · simp only [dedupFirstAux, if_pos hx]
        exact ih seen
      · simp only [dedupFirstAux, if_neg hx]
        refine List.nodup_cons.mpr ⟨?_, ih _⟩
        intro hmem
        exact (mem_dedupFirstAux hmem).2 (List.mem_cons_self _ _)

lemma dedupFirstAux_eq_self : ∀ {seen xs : List String},
    xs.Nodup → (∀ x ∈ xs, x ∉ seen) → dedupFirstAux seen xs = xs := by
  intro seen xs
  induction xs generalizing seen with
  | nil => intro _ _; rfl
  | cons x xs ih =>
      intro hnd hdisj
      have hx : x ∉ seen := hdisj x (List.mem_cons_self _ _)
      simp only [dedupFirstAux, if_neg hx]
      congr 1
      refine ih (List.nodup_cons.mp hnd).2 ?_
      intro y hy hys
      rcases List.mem_cons.mp hys with h | h
      · subst h
        exact (List.nodup_cons.mp hnd).1 hy
      · exact hdisj y (List.mem_cons_of_mem _ hy) h

lemma nodup_dedupFirst (xs : List String) : (dedupFirst xs).Nodup :=
  nodup_dedupFirstAux [] xs

lemma mem_dedupFirst {xs : List String} {y : String} (h : y ∈ dedupFirst xs) : y ∈ xs :=
  (mem_dedupFirstAux h).1

lemma dedupFirst_eq_self {xs : List String} (h : xs.Nodup) : dedupFirst xs = xs :=
  dedupFirstAux_eq_self h (fun x _ hx => (List.not_mem_nil x) hx)

lemma mem_mapWithIdx {f : Nat → α → β} {b : β} : ∀ {i : Nat} {l : List α},
    b ∈ mapWithIdx f i l → ∃ j a, a ∈ l ∧ b = f j a := by
  intro i l
  induction l generalizing i with
  | nil => intro h; simp [mapWithIdx] at h
  | cons x xs ih =>
      intro h
      simp only [mapWithIdx] at h
      rcases List.mem_cons.mp h with h | h
      · exact ⟨i, x, List.mem_cons_self _ _, h⟩
      · obtain ⟨j, a, ha, hb⟩ := ih h
        exact ⟨j, a, List.mem_cons_of_mem _ ha, hb⟩

lemma mapWithIdx_eq_self {f : Nat → α → α} : ∀ {l : List α},
    (∀ j a, a ∈ l → f j a = a) → ∀ i, mapWithIdx f i l = l := by
  intro l
  induction l with
  | nil => intro _ _; rfl
  | cons x xs ih =>
      intro h i
      simp only [mapWithIdx]
      rw [h i x (List.mem_cons_self _ _),
        ih (fun j a ha => h j a (List.mem_cons_of_mem _ ha)) (i + 1)]

lemma mapWithIdx_map {f : Nat → β → γ} {g : α → β} :
    ∀ (i : Nat) (l : List α),
      mapWithIdx f i (l.map g) = mapWithIdx (fun j a => f j (g a)) i l := by
  intro i l
  induction l generalizing i with
  | nil => rfl
  | cons x xs ih => simp only [List.map_cons, mapWithIdx, ih]

/-!
Normal-form facts about sanitized vocabulary entries. -/

lemma sanitizeVocabularyEntry_replacements (fresh : String) (e : PartialVocabularyEntry) :
    (sanitizeVocabularyEntry fresh e).replacements =
      (dedupFirst (((e.replacements.getD []).map jsTrim).filter
          (fun v => v.length > 0))).take MAX_REPLACEMENTS_PER_ENTRY := rfl

lemma sanitizeVocabularyEntry_id (fresh : String) (e : PartialVocabularyEntry) :
    (sanitizeVocabularyEntry fresh e).id =
      if (jsTrim (e.id.getD "")).length = 0 then fresh else jsTrim (e.id.getD "") := rfl

lemma sanitizeVocabularyEntry_word (fresh : String) (e : PartialVocabularyEntry) :
    (sanitizeVocabularyEntry fresh e).word = jsTrim (e.word.getD "") := rfl

lemma entry_replacements_facts (fresh : String) (e : PartialVocabularyEntry) :
    (sanitizeVocabularyEntry fresh e).replacements.Nodup ∧
    (sanitizeVocabularyEntry fresh e).replacements.length ≤ MAX_REPLACEMENTS_PER_ENTRY ∧
    ∀ r ∈ (sanitizeVocabularyEntry fresh e).replacements, 0 < r.length ∧ jsTrim r = r := by
  rw [sanitizeVocabularyEntry_replacements]
  refine ⟨?_, ?_, ?_⟩
  · exact (List.take_sublist _ _).nodup (nodup_dedupFirst _)
  · exact List.length_take_le _ _
  · intro r hr
    have h1 := mem_dedupFirst (List.mem_of_mem_take hr)
    rw [List.mem_filter] at h1
    obtain ⟨h3, h4⟩ := h1
    rw [List.mem_map] at h3
    obtain ⟨v, _, rfl⟩ := h3
    exact ⟨by simpa using h4, jsTrim_idem v⟩

lemma entry_id_facts {fresh : String} (hf1 : jsTrim fresh = fresh) (hf2 : fresh ≠ "")
    (e : PartialVocabularyEntry) :
    jsTrim (sanitizeVocabularyEntry fresh e).id = (sanitizeVocabularyEntry fresh e).id ∧
    (sanitizeVocabularyEntry fresh e).id ≠ "" := by
  rw [sanitizeVocabularyEntry_id]
  by_cases h : (jsTrim (e.id.getD "")).length = 0
  · rw [if_pos h]
    exact ⟨hf1, hf2⟩
  · rw [if_neg h]
    refine ⟨jsTrim_idem _, ?_⟩
    intro hc
    exact h (by rw [hc]; rfl)

lemma entry_word_trim_fixed (fresh : String) (e : PartialVocabularyEntry) :
    jsTrim (sanitizeVocabularyEntry fresh e).word = (sanitizeVocabularyEntry fresh e).word := by
  rw [sanitizeVocabularyEntry_word]
  exact jsTrim_idem _

lemma mem_sanitizeVocabulary_normal {gen : Nat → String}
    (hg : ∀ n, jsTrim (gen n) = gen n ∧ gen n ≠ "")
    {v : List PartialVocabularyEntry} {e : VocabularyEntry}
    (h : e ∈ sanitizeVocabulary gen v) :
    jsTrim e.id = e.id ∧ e.id ≠ "" ∧ 0 < e.word.length ∧ jsTrim e.word = e.word ∧
    e.replacements.Nodup ∧ e.replacements.length ≤ MAX_REPLACEMENTS_PER_ENTRY ∧
    ∀ r ∈ e.replacements, 0 < r.length ∧ jsTrim r = r := by
  unfold sanitizeVocabulary at h
  have h1 := List.mem_of_mem_take h
  rw [List.mem_filter] at h1
  obtain ⟨h2, h3⟩ := h1
  obtain ⟨j, pe, _, rfl⟩ := mem_mapWithIdx h2
  have hid := entry_id_facts (hg j).1 (hg j).2 pe
  have hrep := entry_replacements_facts (gen j) pe
  exact ⟨hid.1, hid.2, by simpa using h3, entry_word_trim_fixed _ _,
    hrep.1, hrep.2.1, hrep.2.2⟩

/-- A second sanitization pass over an already-sanitized entry changes
nothing: the id is kept (not regenerated), the word and replacements
are already in normal form. -/
lemma sanitizeVocabularyEntry_of_normal {fresh : String} {e : VocabularyEntry}
    (hid1 : jsTrim e.id = e.id) (hid2 : e.id ≠ "")
    (hwt : jsTrim e.word = e.word)
    (hnd : e.replacements.Nodup)
    (hlen : e.replacements.length ≤ MAX_REPLACEMENTS_PER_ENTRY)
    (hr : ∀ r ∈ e.replacements, 0 < r.length ∧ jsTrim r = r) :
    sanitizeVocabularyEntry fresh (toPartial e) = e := by
  have hmap : e.replacements.map jsTrim = e.replacements := by
    calc e.replacements.map jsTrim = e.replacements.map id :=
          List.map_congr_left (fun a ha => (hr a ha).2)
      _ = e.replacements := List.map_id _
  have hfil : e.replacements.filter (fun v => v.length > 0) = e.replacements :=
    List.filter_eq_self.mpr (fun a ha => by simpa using (hr a ha).1)
  have hded : dedupFirst e.replacements = e.replacements := dedupFirst_eq_self hnd
  have htak : e.replacements.take MAX_REPLACEMENTS_PER_ENTRY = e.replacements :=
    List.take_of_length_le hlen
  have hidlen : ¬ (jsTrim e.id).length = 0 := by
    rw [hid1]
    intro hc
    exact hid2 (string_eq_empty_of_length_eq_zero hc)
  cases e with
  | mk id word replacements enabled =>
      simp only [sanitizeVocabularyEntry, toPartial, Option.getD_some] at *
      rw [if_neg hidlen, hid1, hwt, hmap, hfil, hded, htak]

/-- Claim C6 (amended): the sanitized vocabulary keeps at most 100
entries, every kept entry has a non-empty word and a non-empty id, and
each entry's replacements are a duplicate-free list of at most 10
non-empty trimmed strings.  Uniqueness of ids, however, is NOT enforced
(see the counterexample).  The hypothesis on `gen` states what is true
of `createVocabularyId`: it returns a UUID or `vocab-...` string, in
either case non-empty and free of surrounding whitespace. -/
theorem sanitizeVocabulary_bounds (gen : Nat → String)
    (hg : ∀ n, jsTrim (gen n) = gen n ∧ gen n ≠ "") (v : List PartialVocabularyEntry) :
    (sanitizeVocabulary gen v).length ≤ MAX_VOCABULARY_ENTRIES ∧
    ∀ e ∈ sanitizeVocabulary gen v,
      e.word ≠ "" ∧ e.id ≠ "" ∧ e.replacements.Nodup ∧
      e.replacements.length ≤ MAX_REPLACEMENTS_PER_ENTRY ∧
      ∀ r ∈ e.replacements, r ≠ "" ∧ jsTrim r = r := by
  constructor
  · unfold sanitizeVocabulary
    exact List.length_take_le _ _
  · intro e he
    obtain ⟨_, hid2, hw, _, hnd, hlen, hr⟩ := mem_sanitizeVocabulary_normal hg he
    refine ⟨string_ne_empty_of_length_pos hw, hid2, hnd, hlen, ?_⟩
    intro r hrm
    obtain ⟨h1, h2⟩ := hr r hrm
    exact ⟨string_ne_empty_of_length_pos h1, h2⟩

/-- Witness for C6 on a concrete unsanitized input. -/
theorem sanitizeVocabulary_bounds_witness :
    (∀ n : Nat, jsTrim ((fun _ => "g") n) = (fun _ => "g") n ∧
      ((fun _ => "g") n : String) ≠ "") ∧
    ((sanitizeVocabulary (fun _ => "g")
        [⟨some " a ", some " Word ", some [" x ", "x", "", "y"], none⟩]).length ≤
          MAX_VOCABULARY_ENTRIES ∧
      ∀ e ∈ sanitizeVocabulary (fun _ => "g")
          [⟨some " a ", some " Word ", some [" x ", "x", "", "y"], none⟩],
        e.word ≠ "" ∧ e.id ≠ "" ∧ e.replacements.Nodup ∧
        e.replacements.length ≤ MAX_REPLACEMENTS_PER_ENTRY ∧
        ∀ r ∈ e.replacements, r ≠ "" ∧ jsTrim r = r) :=
  ⟨fun _ => ⟨(by decide : jsTrim "g" = "g"), (by decide : ("g" : String) ≠ "")⟩,
    sanitizeVocabulary_bounds (fun _ => "g")
      (fun _ => ⟨(by decide : jsTrim "g" = "g"), (by decide : ("g" : String) ≠ "")⟩) _⟩

/-- Claim C6 counterexample: two entries sharing the id `"a"` both
survive sanitization with their id intact — ids are not unique in the
output. -/
theorem sanitizeVocabulary_duplicate_ids :
    (sanitizeVocabulary (fun _ => "fresh")
        [⟨some "a", some "x", some [], some true⟩,
          ⟨some "a", some "y", some [], some true⟩]).map (fun e => e.id) = ["a", "a"] ∧
    ¬ ((sanitizeVocabulary (fun _ => "fresh")
        [⟨some "a", some "x", some [], some true⟩,
          ⟨some "a", some "y", some [], some true⟩]).map (fun e => e.id)).Nodup := by
  decide

/-- Claim C10: sanitization is idempotent — re-sanitizing a sanitized
vocabulary returns it unchanged: no id is regenerated (non-empty ids
are kept), words and replacements are already trimmed, deduplicated and
within bounds.  The hypothesis on `gen` states what is true of
`createVocabularyId` (non-empty, no surrounding whitespace). -/
theorem sanitizeVocabulary_idem (gen : Nat → String)
    (hg : ∀ n, jsTrim (gen n) = gen n ∧ gen n ≠ "") (v : List PartialVocabularyEntry) :
    sanitizeVocabulary gen ((sanitizeVocabulary gen v).map toPartial) =
      sanitizeVocabulary gen v := by
  have hlen : (sanitizeVocabulary gen v).length ≤ MAX_VOCABULARY_ENTRIES := by
    unfold sanitizeVocabulary
    exact List.length_take_le _ _
  show ((mapWithIdx (fun i e => sanitizeVocabularyEntry (gen i) e) 0
      ((sanitizeVocabulary gen v).map toPartial)).filter
        (fun e => e.word.length > 0)).take MAX_VOCABULARY_ENTRIES =
    sanitizeVocabulary gen v
  rw [mapWithIdx_map]
  rw [mapWithIdx_eq_self (fun j e he => by
    obtain ⟨hid1, hid2, _, hwt, hnd, hl, hr⟩ := mem_sanitizeVocabulary_normal hg he
    exact sanitizeVocabularyEntry_of_normal hid1 hid2 hwt hnd hl hr)]
  rw [List.filter_eq_self.mpr (fun e he => by
    simpa using (mem_sanitizeVocabulary_normal hg he).2.2.1)]
  exact List.take_of_length_le hlen

/-- Witness for C10 on a concrete input (missing id, untrimmed word,
duplicate replacements). -/
theorem sanitizeVocabulary_idem_witness :
    (∀ n : Nat, jsTrim ((fun _ => "g") n) = (fun _ => "g") n ∧
      ((fun _ => "g") n : String) ≠ "") ∧
    sanitizeVocabulary (fun _ => "g")
        ((sanitizeVocabulary (fun _ => "g")
          [⟨none, some " w ", some [" r ", "r"], none⟩]).map toPartial) =
      sanitizeVocabulary (fun _ => "g") [⟨none, some " w ", some [" r ", "r"], none⟩] :=
  ⟨fun _ => ⟨(by decide : jsTrim "g" = "g"), (by decide : ("g" : String) ≠ "")⟩,
    sanitizeVocabulary_idem (fun _ => "g")
      (fun _ => ⟨(by decide : jsTrim "g" = "g"), (by decide : ("g" : String) ≠ "")⟩) _⟩

/-!
Claim theorems for the Vocabulary Corrector (spec-modelled, §4.2). -/

/-- Claim C7: disabled vocabulary entries never alter the text (for any
entry list in which every entry is disabled, the corrector is the
identity); and for the entry `{word: "Kubernetes", replacements:
["cube and eighties", "kuber nettis"]}`, when disabled the example
input is returned unchanged, and when enabled the input
`"deployed it on kuber nettis yesterday"` is corrected to
`"deployed it on Kubernetes yesterday"` by case-insensitive
whole-phrase boundary matching. -/
theorem vocabulary_correction_example :
    (∀ (entries : List VocabularyEntry) (text : String),
        (∀ e ∈ entries, e.enabled = false) → correctText entries text = text) ∧
    correctText [⟨"k1", "Kubernetes", ["cube and eighties", "kuber nettis"], false⟩]
        "deployed it on kuber nettis yesterday" = "deployed it on kuber nettis yesterday" ∧
    correctText [⟨"k1", "Kubernetes", ["cube and eighties", "kuber nettis"], true⟩]
        "deployed it on kuber nettis yesterday" = "deployed it on Kubernetes yesterday" := by
  refine ⟨?_, by decide, by decide⟩
  intro entries
  induction entries with
  | nil => intro text _; rfl
  | cons e es ih =>
      intro text h
      have he : e.enabled = false := h e (List.mem_cons_self _ _)
      have hstep : correctWithEntry text e = text := by
        simp [correctWithEntry, he]
      show List.foldl correctWithEntry (correctWithEntry text e) es = text
      rw [hstep]
      exact ih text (fun e' he' => h e' (List.mem_cons_of_mem _ he'))

/-- Witness for C7: the all-disabled identity at a concrete list. -/
theorem vocabulary_correction_example_witness :
    (∀ e ∈ [VocabularyEntry.mk "k1" "Kubernetes" ["kuber nettis"] false], e.enabled = false) ∧
    correctText [⟨"k1", "Kubernetes", ["kuber nettis"], false⟩] "hello kuber nettis" =
      "hello kuber nettis" :=
  ⟨by decide,
    vocabulary_correction_example.1 [⟨"k1", "Kubernetes", ["kuber nettis"], false⟩]
      "hello kuber nettis" (by decide)⟩

end Dikt
